import Mathlib

/-!
Verification of the multi-domain-docker control plane and host agent.

The Go sources are shallowly embedded: the store's JSON-backed entity maps
become association lists keyed by entity ID, timestamps become natural
numbers (with `Option Nat` standing for Go's zero/non-zero `time.Time`),
and each store/API operation becomes a pure function from the old state to
the returned error and the new state.  Persistence (`persistLocked`, a
whole-snapshot file write) is modeled by a boolean `persistOk` parameter:
`true` means the `os.WriteFile` call succeeded, `false` that it failed.
-/

namespace MDP

/-- Project entity (control-plane/internal/models/models.go). -/
structure Project where
  id : String
  name : String
  slug : String
  createdAt : Nat
deriving DecidableEq

/-- Domain entity (models.go). -/
structure Domain where
  id : String
  serviceId : String
  environment : String
  hostname : String
  createdAt : Nat
deriving DecidableEq

/-- Deployment entity (models.go): desired image in a specific environment. -/
structure Deployment where
  id : String
  serviceId : String
  environment : String
  image : String
  createdAt : Nat
deriving DecidableEq

/-- Service entity (models.go). -/
structure Service where
  id : String
  projectId : String
  name : String
  image : String
  internalPort : Nat
  compose : String
  createdAt : Nat
  updatedAt : Nat
  domains : List Domain
  deployments : List Deployment
deriving DecidableEq

/-- Repository entity (models.go).  The `serviceId` and `environment`
fields do not appear in the models.go revision shipped here, but
store.go's UpsertRepository and server.go's webhook push branch both read
and write `repo.ServiceID` and `repo.Environment`, so the struct those
files compile against carries them. -/
structure Repository where
  id : String
  owner : String
  name : String
  defaultBranch : String
  composePath : String
  installation : String
  serviceId : String
  environment : String
  createdAt : Nat
  updatedAt : Nat
deriving DecidableEq

/-- Installation entity (models.go). -/
structure Installation where
  id : String
  account : String
  externalId : String
  webhookSecret : String
  createdAt : Nat
  updatedAt : Nat
deriving DecidableEq

/-- BuildJob entity (models.go).  `startedAt`/`completedAt` are `Option Nat`:
`none` models Go's zero `time.Time` (the `IsZero` test). -/
structure BuildJob where
  id : String
  repository : String
  ref : String
  commit : String
  installation : String
  status : String
  reason : String
  workerId : String
  startedAt : Option Nat
  completedAt : Option Nat
  artifacts : List String
  serviceId : String
  environment : String
  composePath : String
  createdAt : Nat
  updatedAt : Nat
deriving DecidableEq

/-- Lookup in a Go map modeled as an association list: first entry whose key
matches (a well-formed map has distinct keys, so at most one matches). -/
def mapGet (key : α → String) (k : String) : List α → Option α
  | [] => none
  | y :: rest => if key y = k then some y else mapGet key k rest

/-- Assignment `m[k] = x` on a Go map modeled as an association list:
replace the first entry carrying the key of `x`, or append if absent. -/
def mapInsert (key : α → String) (x : α) : List α → List α
  | [] => [x]
  | y :: rest => if key y = key x then x :: rest else y :: mapInsert key x rest

/-- Whitespace as trimmed by Go's strings.TrimSpace, restricted to the
ASCII whitespace characters that can occur in the strings at hand. -/
def isSpaceChar (c : Char) : Bool :=
  c = ' ' ∨ c = '\t' ∨ c = '\n' ∨ c = '\r'

/-- Go's strings.TrimSpace: drop leading and trailing whitespace. -/
def trimSpace (s : String) : String :=
  String.mk (((s.data.dropWhile isSpaceChar).reverse.dropWhile isSpaceChar).reverse)

/-- State of the store (store.go, `type State`): the five entity maps. -/
structure StoreState where
  projects : List Project
  services : List Service
  repos : List Repository
  installations : List Installation
  buildJobs : List BuildJob
deriving DecidableEq

/-- Error taxonomy surfaced by the store and API layer (store.go errors /
spec section 7 names). -/
inductive StoreError where
  | notFound
  | alreadyExists (what : String)
  | persistenceFailure
  | validationError (msg : String)
  | signatureInvalid (msg : String)
deriving DecidableEq

/-- Store.CreateProject (store.go): reject a duplicate ID, otherwise stamp
`CreatedAt` and store; the snapshot write happens after the in-memory
mutation, and a failed write is returned without rolling the map back. -/
def createProject (now : Nat) (persistOk : Bool) (st : StoreState) (p : Project) :
    Option StoreError × StoreState :=
  match mapGet Project.id p.id st.projects with
  | some _ => (some (StoreError.alreadyExists "project"), st)
  | none =>
    let p' := { p with createdAt := now }
    let st' := { st with projects := mapInsert Project.id p' st.projects }
    if persistOk then (none, st') else (some StoreError.persistenceFailure, st')

/-- Store.GetProject (store.go). -/
def getProject (st : StoreState) (id : String) : Option Project :=
  mapGet Project.id id st.projects

/-- Store.CreateService (store.go): duplicate check, then stamp
`CreatedAt`/`UpdatedAt` and store; persistence after the mutation. -/
def createService (now : Nat) (persistOk : Bool) (st : StoreState) (svc : Service) :
    Option StoreError × StoreState :=
  match mapGet Service.id svc.id st.services with
  | some _ => (some (StoreError.alreadyExists "service"), st)
  | none =>
    let svc' := { svc with createdAt := now, updatedAt := now }
    let st' := { st with services := mapInsert Service.id svc' st.services }
    if persistOk then (none, st') else (some StoreError.persistenceFailure, st')

/-- Store.UpdateService (store.go): `NotFound` when absent, otherwise
refresh `UpdatedAt` and replace the stored copy. -/
def updateService (now : Nat) (persistOk : Bool) (st : StoreState) (svc : Service) :
    Option StoreError × StoreState :=
  match mapGet Service.id svc.id st.services with
  | none => (some StoreError.notFound, st)
  | some _ =>
    let svc' := { svc with updatedAt := now }
    let st' := { st with services := mapInsert Service.id svc' st.services }
    if persistOk then (none, st') else (some StoreError.persistenceFailure, st')

/-- Store.GetService (store.go). -/
def getService (st : StoreState) (id : String) : Option Service :=
  mapGet Service.id id st.services

/-- Normalization Store.CreateBuildJob (store.go) applies to an incoming
job before storing it: default the status to `pending` and the environment
to `production` (when a service is targeted), reset all lifecycle stamps
and the worker assignment, and trim the compose path.  The caller's ID is
kept and the source performs no duplicate-ID check before the assignment
into the map. -/
def buildJobReset (now : Nat) (job : BuildJob) : BuildJob :=
  let j1 := if job.status = "" then { job with status := "pending" } else job
  let j2 := if j1.serviceId ≠ "" ∧ j1.environment = "" then
      { j1 with environment := "production" } else j1
  { j2 with createdAt := now, updatedAt := now, startedAt := none,
            completedAt := none, workerId := "",
            composePath := trimSpace j2.composePath }

/-- Store.CreateBuildJob (store.go): store the reset job under its ID with
no duplicate check, then persist. -/
def createBuildJob (now : Nat) (persistOk : Bool) (st : StoreState) (job : BuildJob) :
    Option StoreError × StoreState :=
  let st' := { st with buildJobs := mapInsert BuildJob.id (buildJobReset now job) st.buildJobs }
  if persistOk then (none, st') else (some StoreError.persistenceFailure, st')

/-- Store.GetBuildJob (store.go). -/
def getBuildJob (st : StoreState) (id : String) : Option BuildJob :=
  mapGet BuildJob.id id st.buildJobs

/-- Stamping Store.UpdateBuildJob (store.go) applies to the incoming job:
refresh `UpdatedAt`, set the completion time when entering a terminal
status with no completion time yet, clear it when the status is
non-terminal, and trim the compose path. -/
def buildJobStamped (now : Nat) (job : BuildJob) : BuildJob :=
  let j1 := { job with updatedAt := now }
  let j2 :=
    if j1.status = "succeeded" ∨ j1.status = "failed" then
      if j1.completedAt = none then { j1 with completedAt := some now } else j1
    else
      if j1.completedAt ≠ none then { j1 with completedAt := none } else j1
  { j2 with composePath := trimSpace j2.composePath }

/-- Store.UpdateBuildJob (store.go): `NotFound` when the ID is absent,
otherwise replace the stored job with the stamped incoming one. -/
def updateBuildJob (now : Nat) (persistOk : Bool) (st : StoreState) (job : BuildJob) :
    Option StoreError × StoreState :=
  match mapGet BuildJob.id job.id st.buildJobs with
  | none => (some StoreError.notFound, st)
  | some _ =>
    let st' := { st with buildJobs := mapInsert BuildJob.id (buildJobStamped now job) st.buildJobs }
    if persistOk then (none, st') else (some StoreError.persistenceFailure, st')

/-- One comparison of the scan inside Store.ClaimNextPendingBuildJob
(store.go): adopt the candidate when nothing is selected yet or when its
creation time is strictly earlier (`CreatedAt.Before` is strict, so the
first of two equal times wins). -/
def selectBetter (j : BuildJob) : Option BuildJob → Option BuildJob
  | none => some j
  | some b => if j.createdAt < b.createdAt then some j else some b

/-- The scan inside Store.ClaimNextPendingBuildJob (store.go): fold over the
job map in iteration order keeping the pending job with the earliest
creation time. -/
def selectPendingAux : Option BuildJob → List BuildJob → Option BuildJob
  | acc, [] => acc
  | acc, j :: rest =>
    if j.status = "pending" then selectPendingAux (selectBetter j acc) rest
    else selectPendingAux acc rest

/-- Store.ClaimNextPendingBuildJob (store.go): under the single write lock,
select the oldest pending job, mark it running with the worker's ID and a
fresh start time, persist and return a copy; `NotFound` when no job is
pending.  On a failed snapshot write the error is returned but the
in-memory transition has already happened. -/
def claimNextPendingBuildJob (now : Nat) (persistOk : Bool) (workerId : String)
    (st : StoreState) : Except StoreError BuildJob × StoreState :=
  match selectPendingAux none st.buildJobs with
  | none => (Except.error StoreError.notFound, st)
  | some sel =>
    let j' := { sel with status := "running", workerId := workerId,
                         startedAt := some now, updatedAt := now }
    let st' := { st with buildJobs := mapInsert BuildJob.id j' st.buildJobs }
    if persistOk then (Except.ok j', st') else (Except.error StoreError.persistenceFailure, st')

/-- Store.FindInstallationByExternalID (store.go): first map entry whose
external ID matches. -/
def findInstallationByExternalID (st : StoreState) (externalId : String) :
    Option Installation :=
  st.installations.find? (fun inst => inst.externalId = externalId)

/-- Jobs currently in status `pending` (the set scanned by the claim). -/
def pendingJobs (l : List BuildJob) : List BuildJob :=
  l.filter (fun j => j.status = "pending")

/-- A sequence of `ClaimNextPendingBuildJob` calls, one per `(now, worker)`
pair, in the serialization order imposed by the store's write lock; every
snapshot write succeeds.  Returns the claimed jobs in call order. -/
def runClaims : List (Nat × String) → StoreState → List BuildJob
  | [], _ => []
  | (now, w) :: rest, st =>
    match claimNextPendingBuildJob now true w st with
    | (Except.ok j, st') => j :: runClaims rest st'
    | (Except.error _, st') => runClaims rest st'

/-- Body of the PATCH/POST branch of handleBuildJob (server.go): the JSON
request body decoded into its four fields.  A string field absent from the
JSON decodes to the empty string; an absent artifacts array decodes to a
nil slice, modeled as `none`. -/
structure JobPatchPayload where
  status : String
  reason : String
  artifacts : Option (List String)
  composePath : String
deriving DecidableEq

/-- The field overlay of the PATCH/POST branch of handleBuildJob
(server.go): apply the non-empty status, the non-nil artifacts and the
non-empty compose path onto the loaded job, then assign the reason field
unconditionally. -/
def applyJobPatch (payload : JobPatchPayload) (job : BuildJob) : BuildJob :=
  let j1 := if payload.status ≠ "" then { job with status := payload.status } else job
  let j2 := match payload.artifacts with
    | some a => { j1 with artifacts := a }
    | none => j1
  let j3 := if payload.composePath ≠ "" then { j2 with composePath := payload.composePath }
            else j2
  { j3 with reason := payload.reason }

/-- PATCH /v1/build-jobs/id (server.go, handleBuildJob): load the job,
overlay the request fields, and write back through Store.UpdateBuildJob. -/
def handleBuildJobPatch (now : Nat) (persistOk : Bool) (st : StoreState) (id : String)
    (payload : JobPatchPayload) : Option StoreError × StoreState :=
  match getBuildJob st id with
  | none => (some StoreError.notFound, st)
  | some job => updateBuildJob now persistOk st (applyJobPatch payload job)

/-- Body of POST /v1/services/id/deployments (server.go). -/
structure DeployPayload where
  environment : String
  image : String
deriving DecidableEq

/-- POST /v1/services/id/deployments (server.go,
handleServiceDeployments): default the environment to production, require
an image, replace in place the first deployment entry with the same
environment (append when none exists), overwrite the service's top-level
image, and write back through Store.UpdateService. -/
def handleServiceDeploymentsPost (now : Nat) (persistOk : Bool) (newId : String)
    (st : StoreState) (serviceId : String) (payload : DeployPayload) :
    Option StoreError × StoreState :=
  match getService st serviceId with
  | none => (some StoreError.notFound, st)
  | some svc =>
    let env := if payload.environment = "" then "production" else payload.environment
    if payload.image = "" then (some (StoreError.validationError "image required"), st)
    else
      let d : Deployment := { id := newId, serviceId := serviceId, environment := env,
                              image := payload.image, createdAt := now }
      let svc' := { svc with deployments := mapInsert Deployment.environment d svc.deployments,
                             image := payload.image }
      updateService now persistOk st svc'

/-- One row of the GET /v1/state/services response (server.go,
handleServiceState's serviceInfo), which is also the desired-state record
the agent consumes (agent/main.go, serviceState). -/
structure ServiceInfo where
  id : String
  projectId : String
  name : String
  image : String
  internalPort : Nat
  compose : String
deriving DecidableEq

/-- GET /v1/state/services (server.go, handleServiceState): for every
project, every service of that project projected to its serviceInfo row. -/
def serviceStateList (st : StoreState) : List ServiceInfo :=
  st.projects.flatMap (fun p =>
    (st.services.filter (fun svc => svc.projectId = p.id)).map (fun svc =>
      { id := svc.id, projectId := svc.projectId, name := svc.name,
        image := svc.image, internalPort := svc.internalPort, compose := svc.compose }))

/-- Value of one hexadecimal digit, as accepted by Go's hex.DecodeString. -/
def hexDigitVal? (c : Char) : Option Nat :=
  if '0' ≤ c ∧ c ≤ '9' then some (c.toNat - '0'.toNat)
  else if 'a' ≤ c ∧ c ≤ 'f' then some (c.toNat - 'a'.toNat + 10)
  else if 'A' ≤ c ∧ c ≤ 'F' then some (c.toNat - 'A'.toNat + 10)
  else none

/-- Go's hex.DecodeString on a character list: pairs of hex digits become
bytes; an odd length or a non-hex character is an error. -/
def hexBytes? : List Char → Option (List Nat)
  | [] => some []
  | [_] => none
  | a :: b :: rest =>
    match hexDigitVal? a, hexDigitVal? b, hexBytes? rest with
    | some hi, some lo, some tail => some ((hi * 16 + lo) :: tail)
    | _, _, _ => none

/-- verifySignature (server.go): reject a missing header, a header without
the sha256= tag, or undecodable hex; otherwise compare the decoded bytes
with the HMAC-SHA256 of the payload under the secret.  The HMAC primitive
itself (crypto/hmac + crypto/sha256) is passed in as the function `mac`
from secret and payload to the digest bytes. -/
def verifySignature (mac : String → String → List Nat) (signatureHeader : String)
    (payload : String) (secret : String) : Option StoreError :=
  if signatureHeader = "" then some (StoreError.signatureInvalid "missing signature header")
  else if ¬ (signatureHeader.data.take 7 = "sha256=".data) then
    some (StoreError.signatureInvalid "unexpected signature format")
  else
    match hexBytes? (signatureHeader.data.drop 7) with
    | none => some (StoreError.signatureInvalid "decode signature")
    | some sigBytes =>
      if mac secret payload = sigBytes then none
      else some (StoreError.signatureInvalid "signature mismatch")

/-- Result of parsePushEvent (server.go): the fields the push branch uses.
JSON decoding of the request body is plumbing; the handler embedding takes
this parsed value as an input. -/
structure PushInfo where
  repository : String
  ref : String
  after : String
deriving DecidableEq

/-- An inbound webhook request as the handler sees it: the event and
signature headers, the raw body, the installation-ID header, and the
results of the two JSON extractions performed on the body
(extractInstallationID and parsePushEvent). -/
structure WebhookRequest where
  event : String
  sig : String
  body : String
  installationIdHeader : String
  extractedInstallationId : String
  pushInfo : Option PushInfo
deriving DecidableEq

/-- Lowercasing of one character as done by Go's strings.ToLower,
restricted to the ASCII letters sanitizeKey distinguishes. -/
def charLower (c : Char) : Char :=
  if 'A' ≤ c ∧ c ≤ 'Z' then Char.ofNat (c.toNat + 32) else c

/-- sanitizeKey (util.go): lowercase, keep [a-z0-9], replace every other
rune by a dash, then trim leading/trailing dashes. -/
def sanitizeKey (value : String) : String :=
  let mapped := value.data.map (fun c =>
    let lc := charLower c
    if ('a' ≤ lc ∧ lc ≤ 'z') ∨ ('0' ≤ lc ∧ lc ≤ '9') then lc else '-')
  String.mk ((mapped.dropWhile (fun c => c = '-')).reverse.dropWhile (fun c => c = '-')
    |>.reverse)

/-- repositoryID (util.go). -/
def repositoryID (owner name : String) : String :=
  sanitizeKey owner ++ "-" ++ sanitizeKey name

/-- splitRepoFullName (server.go): an owner/name pair separated by exactly
one slash, both halves non-empty after trimming. -/
def splitRepoFullName (full : String) : Option (String × String) :=
  match full.splitOn "/" with
  | [a, b] =>
    let owner := trimSpace a
    let name := trimSpace b
    if owner = "" ∨ name = "" then none else some (owner, name)
  | _ => none

/-- Outcome of handleGitHubWebhook for one request: HTTP-level rejection
(401 on signature failure) or acceptance, the store afterwards, and the ID
of the build job enqueued by a push event, when one was. -/
structure WebhookOutcome where
  rejected : Option StoreError
  store : StoreState
  createdJobId : Option String
deriving DecidableEq

/-- handleGitHubWebhook (server.go), push path: resolve the installation ID
from the header or the body, look the installation up, enforce the
signature only when an installation with a non-empty stored secret was
found (a signature without a stored secret is merely logged), and on a
push event with repository and commit enqueue a build job enriched from
the registered repository record. -/
def handleGitHubWebhook (mac : String → String → List Nat) (newId : String) (now : Nat)
    (persistOk : Bool) (st : StoreState) (req : WebhookRequest) : WebhookOutcome :=
  let installationId := if req.installationIdHeader = "" then req.extractedInstallationId
                        else req.installationIdHeader
  let inst := if installationId ≠ "" then findInstallationByExternalID st installationId
              else none
  let gateError : Option StoreError :=
    match inst with
    | some i => if i.webhookSecret ≠ "" then verifySignature mac req.sig req.body i.webhookSecret
                else none
    | none => none
  match gateError with
  | some e => { rejected := some e, store := st, createdJobId := none }
  | none =>
    if req.event = "push" then
      match req.pushInfo with
      | some info =>
        if info.repository ≠ "" ∧ info.after ≠ "" then
          let base : BuildJob :=
            { id := newId, repository := info.repository, ref := info.ref,
              commit := info.after, installation := installationId, status := "pending",
              reason := "", workerId := "", startedAt := none, completedAt := none,
              artifacts := [], serviceId := "", environment := "", composePath := "",
              createdAt := 0, updatedAt := 0 }
          let job :=
            match splitRepoFullName info.repository with
            | some (owner, name) =>
              match mapGet Repository.id (repositoryID owner name) st.repos with
              | some repo =>
                let withSvc := { base with serviceId := repo.serviceId,
                                           composePath := repo.composePath }
                if repo.environment ≠ "" then { withSvc with environment := repo.environment }
                else if repo.serviceId ≠ "" then { withSvc with environment := "production" }
                else withSvc
              | none => base
            | none => base
          match createBuildJob now persistOk st job with
          | (none, st') => { rejected := none, store := st', createdJobId := some newId }
          | (some _, st') => { rejected := none, store := st', createdJobId := none }
        else { rejected := none, store := st, createdJobId := none }
      | none => { rejected := none, store := st, createdJobId := none }
    else { rejected := none, store := st, createdJobId := none }

/-- One docker CLI invocation issued by the agent (agent/main.go).  The
inspect and ps calls are reads and are not listed: the claims count only
mutating runtime commands. -/
inductive DockerCmd where
  | composeDown (svcId : String)
  | pull (image : String)
  | start (container : String)
  | rm (container : String)
  | runContainer (image : String) (svcId : String) (port : Nat)
  | composePull (svcId : String)
  | composeUp (svcId : String)
deriving DecidableEq

/-- What docker inspect reports about the labeled container of one
service: its configured image and whether it is running. -/
structure ContainerState where
  image : String
  running : Bool
deriving DecidableEq

/-- The runtime facts one service's convergence step observes and mutates:
the rendered per-service compose file (if any) and the labeled container
(if any). -/
structure ServiceRuntime where
  composeFile : Option String
  container : Option ContainerState
deriving DecidableEq

/-- ensureContainer (agent/main.go): skip a service with no image; tear
down a leftover compose stack; always pull the desired image; then, from
inspection, do nothing if the container already runs the desired image,
start it if it is stopped with the right image, and otherwise force-remove
and re-run it.  Returns the issued mutating commands and the runtime
afterwards. -/
def ensureContainer (svc : ServiceInfo) (rt : ServiceRuntime) :
    List DockerCmd × ServiceRuntime :=
  if trimSpace svc.image = "" then ([], rt)
  else
    let step1 : List DockerCmd × ServiceRuntime :=
      match rt.composeFile with
      | some _ => ([DockerCmd.composeDown svc.id], { rt with composeFile := none })
      | none => ([], rt)
    let cmds := step1.1 ++ [DockerCmd.pull svc.image]
    let rt1 := step1.2
    match rt1.container with
    | some c =>
      if trimSpace c.image = svc.image then
        if c.running then (cmds, rt1)
        else (cmds ++ [DockerCmd.start ("svc-" ++ svc.id)],
              { rt1 with container := some { c with running := true } })
      else
        (cmds ++ [DockerCmd.rm ("svc-" ++ svc.id),
                  DockerCmd.runContainer svc.image svc.id svc.internalPort],
         { rt1 with container := some { image := svc.image, running := true } })
    | none =>
      (cmds ++ [DockerCmd.rm ("svc-" ++ svc.id),
                DockerCmd.runContainer svc.image svc.id svc.internalPort],
       { rt1 with container := some { image := svc.image, running := true } })

/-- ensureComposeService (agent/main.go): force-remove the single-container
deployment, rewrite the compose file, compose pull and compose up. -/
def ensureComposeService (svc : ServiceInfo) (_rt : ServiceRuntime) :
    List DockerCmd × ServiceRuntime :=
  ([DockerCmd.rm ("svc-" ++ svc.id), DockerCmd.composePull svc.id, DockerCmd.composeUp svc.id],
   { composeFile := some svc.compose, container := none })

/-- ensureService (agent/main.go): a service with a non-blank inline
compose document is treated as a compose stack, otherwise as a single
container. -/
def ensureService (svc : ServiceInfo) (rt : ServiceRuntime) :
    List DockerCmd × ServiceRuntime :=
  if trimSpace svc.compose ≠ "" then ensureComposeService svc rt else ensureContainer svc rt

/-- A build job with every field at its zero value, for concrete test
states. -/
def baseJob : BuildJob :=
  { id := "", repository := "", ref := "", commit := "", installation := "",
    status := "", reason := "", workerId := "", startedAt := none, completedAt := none,
    artifacts := [], serviceId := "", environment := "", composePath := "",
    createdAt := 0, updatedAt := 0 }

/-- A service with every field at its zero value, for concrete test
states. -/
def baseService : Service :=
  { id := "", projectId := "", name := "", image := "", internalPort := 0,
    compose := "", createdAt := 0, updatedAt := 0, domains := [], deployments := [] }

/-- The store as Store.New initializes it: all five maps empty. -/
def emptyStore : StoreState :=
  { projects := [], services := [], repos := [], installations := [], buildJobs := [] }

/-- A concrete store with three pending jobs of distinct creation times and
one running job, for exercising the claim protocol. -/
def exQueue : StoreState :=
  { emptyStore with buildJobs :=
      [{ baseJob with id := "b", status := "pending", createdAt := 5 },
       { baseJob with id := "a", status := "pending", createdAt := 3 },
       { baseJob with id := "d", status := "running", createdAt := 1 },
       { baseJob with id := "c", status := "pending", createdAt := 9 }] }

/-- A concrete store holding one project, one service and one build job,
for exercising the duplicate-ID paths. -/
def exStoreC3 : StoreState :=
  { emptyStore with
      projects := [{ id := "p1", name := "N", slug := "n", createdAt := 1 }],
      services := [{ baseService with id := "s1", name := "svc" }],
      buildJobs := [{ baseJob with id := "j", repository := "old" }] }

/-- A concrete store holding one running job with a reason, for the
partial-update paths. -/
def exStoreC7 : StoreState :=
  { emptyStore with buildJobs :=
      [{ baseJob with id := "j", status := "running", reason := "boom" }] }


theorem mapGet_eq_some (key : α → String) (k : String) (l : List α) (y : α)
    (h : mapGet key k l = some y) : key y = k ∧ y ∈ l := by
  induction l with
  | nil => simp [mapGet] at h
  | cons z rest ih =>
    rw [mapGet] at h
    by_cases hz : key z = k
    · rw [if_pos hz] at h
      cases h
      exact ⟨hz, List.mem_cons_self _ _⟩
    · rw [if_neg hz] at h
      exact ⟨(ih h).1, List.mem_cons_of_mem _ (ih h).2⟩

theorem mapGet_mapInsert_self (key : α → String) (x : α) (l : List α) :
    mapGet key (key x) (mapInsert key x l) = some x := by
  induction l with
  | nil => simp [mapGet, mapInsert]
  | cons y rest ih =>
    rw [mapInsert]
    by_cases hy : key y = key x
    · rw [if_pos hy, mapGet, if_pos rfl]
    · rw [if_neg hy, mapGet, if_neg hy]
      exact ih

theorem mem_map_key_mapInsert (key : α → String) (x : α) (l : List α) (a : String)
    (h : a ∈ (mapInsert key x l).map key) : a = key x ∨ a ∈ l.map key := by
  induction l with
  | nil => simp [mapInsert] at h; simp [h]
  | cons y rest ih =>
    rw [mapInsert] at h
    by_cases hy : key y = key x
    · rw [if_pos hy] at h
      rcases List.mem_cons.mp h with h | h
      · exact Or.inl h
      · exact Or.inr (List.mem_cons_of_mem _ h)
    · rw [if_neg hy] at h
      rcases List.mem_cons.mp h with h | h
      · exact Or.inr (by simp [h])
      · rcases ih h with h | h
        · exact Or.inl h
        · exact Or.inr (List.mem_cons_of_mem _ h)

theorem mapInsert_nodup_keys (key : α → String) (x : α) (l : List α)
    (hn : (l.map key).Nodup) : ((mapInsert key x l).map key).Nodup := by
  induction l with
  | nil => simp [mapInsert]
  | cons y rest ih =>
    rw [List.map_cons, List.nodup_cons] at hn
    rw [mapInsert]
    by_cases hy : key y = key x
    · rw [if_pos hy, List.map_cons, List.nodup_cons]
      exact ⟨hy ▸ hn.1, hn.2⟩
    · rw [if_neg hy, List.map_cons, List.nodup_cons]
      refine ⟨fun hmem => ?_, ih hn.2⟩
      rcases mem_map_key_mapInsert key x rest (key y) hmem with h | h
      · exact hy h
      · exact hn.1 h

theorem filter_length_le_one_of_nodup (key : α → String) (k : String) (l : List α)
    (hn : (l.map key).Nodup) : (l.filter (fun y => key y = k)).length ≤ 1 := by
  induction l with
  | nil => simp
  | cons y rest ih =>
    rw [List.map_cons, List.nodup_cons] at hn
    rw [List.filter_cons]
    by_cases hy : key y = k
    · have : rest.filter (fun z => key z = k) = [] := by
        rw [List.filter_eq_nil_iff]
        intro z hz hzk
        exact hn.1 (hy ▸ (of_decide_eq_true hzk) ▸ List.mem_map_of_mem key hz)
      simp [hy, this]
    · simpa [hy] using ih hn.2

theorem filter_mapInsert_self (key : α → String) (x : α) (l : List α)
    (hle : (l.filter (fun y => key y = key x)).length ≤ 1) :
    (mapInsert key x l).filter (fun y => key y = key x) = [x] := by
  induction l with
  | nil => simp [mapInsert]
  | cons y rest ih =>
    rw [mapInsert]
    rw [List.filter_cons] at hle
    by_cases hy : key y = key x
    · simp only [hy, decide_True, if_true, List.length_cons] at hle
      have hrest0 : rest.filter (fun z => key z = key x) = [] := by
        cases hrest : rest.filter (fun z => key z = key x) with
        | nil => rfl
        | cons a as => rw [hrest] at hle; simp at hle
      rw [if_pos hy, List.filter_cons]
      simp [hy, hrest0]
    · simp only [hy, decide_False, if_false] at hle
      rw [if_neg hy, List.filter_cons]
      simpa [hy] using ih hle

theorem selectBetter_isSome (j : BuildJob) (acc : Option BuildJob) :
    selectBetter j acc ≠ none := by
  cases acc with
  | none => simp [selectBetter]
  | some b => by_cases h : j.createdAt < b.createdAt <;> simp [selectBetter, h]

theorem selectBetter_eq_some (j : BuildJob) (acc : Option BuildJob) (b : BuildJob)
    (h : selectBetter j acc = some b) : b = j ∨ acc = some b := by
  cases acc with
  | none => rw [selectBetter] at h; cases h; exact Or.inl rfl
  | some a =>
    rw [selectBetter] at h
    by_cases hlt : j.createdAt < a.createdAt
    · rw [if_pos hlt] at h; cases h; exact Or.inl rfl
    · rw [if_neg hlt] at h; cases h; exact Or.inr rfl

theorem selectBetter_le (j : BuildJob) (acc : Option BuildJob) (b : BuildJob)
    (h : selectBetter j acc = some b) :
    b.createdAt ≤ j.createdAt ∧ ∀ a, acc = some a → b.createdAt ≤ a.createdAt := by
  cases acc with
  | none =>
    rw [selectBetter] at h
    cases h
    exact ⟨Nat.le_refl _, fun a ha => by cases ha⟩
  | some a =>
    rw [selectBetter] at h
    by_cases hlt : j.createdAt < a.createdAt
    · rw [if_pos hlt] at h
      cases h
      exact ⟨Nat.le_refl _, fun a' ha' => by cases ha'; exact Nat.le_of_lt hlt⟩
    · rw [if_neg hlt] at h
      cases h
      exact ⟨Nat.le_of_not_lt hlt, fun a' ha' => by cases ha'; exact Nat.le_refl _⟩

theorem selectPendingAux_eq_none (l : List BuildJob) :
    ∀ acc, selectPendingAux acc l = none ↔ acc = none ∧ pendingJobs l = [] := by
  induction l with
  | nil => intro acc; simp [selectPendingAux, pendingJobs]
  | cons j rest ih =>
    intro acc
    rw [selectPendingAux]
    by_cases hp : j.status = "pending"
    · rw [if_pos hp, ih]
      constructor
      · rintro ⟨habs, -⟩
        exact absurd habs (selectBetter_isSome j acc)
      · rintro ⟨-, habs⟩
        simp [pendingJobs, List.filter_cons, hp] at habs
    · rw [if_neg hp, ih]
      simp [pendingJobs, List.filter_cons, hp]

theorem selectPendingAux_mem (l : List BuildJob) :
    ∀ acc b, selectPendingAux acc l = some b →
      acc = some b ∨ (b ∈ l ∧ b.status = "pending") := by
  induction l with
  | nil => intro acc b h; rw [selectPendingAux] at h; exact Or.inl h
  | cons j rest ih =>
    intro acc b h
    rw [selectPendingAux] at h
    by_cases hp : j.status = "pending"
    · rw [if_pos hp] at h
      rcases ih (selectBetter j acc) b h with h' | h'
      · rcases selectBetter_eq_some j acc b h' with rfl | h''
        · exact Or.inr ⟨List.mem_cons_self _ _, hp⟩
        · exact Or.inl h''
      · exact Or.inr ⟨List.mem_cons_of_mem _ h'.1, h'.2⟩
    · rw [if_neg hp] at h
      rcases ih acc b h with h' | h'
      · exact Or.inl h'
      · exact Or.inr ⟨List.mem_cons_of_mem _ h'.1, h'.2⟩

theorem selectPendingAux_min (l : List BuildJob) :
    ∀ acc b, selectPendingAux acc l = some b →
      (∀ j ∈ l, j.status = "pending" → b.createdAt ≤ j.createdAt) ∧
      (∀ a, acc = some a → b.createdAt ≤ a.createdAt) := by
  induction l with
  | nil =>
    intro acc b h
    rw [selectPendingAux] at h
    exact ⟨by simp, fun a ha => by rw [ha] at h; cases h; exact Nat.le_refl _⟩
  | cons j rest ih =>
    intro acc b h
    rw [selectPendingAux] at h
    by_cases hp : j.status = "pending"
    · rw [if_pos hp] at h
      obtain ⟨hrest, hacc⟩ := ih (selectBetter j acc) b h
      cases heq : selectBetter j acc with
      | none => exact absurd heq (selectBetter_isSome j acc)
      | some c =>
        have hbc : b.createdAt ≤ c.createdAt := hacc c heq
        obtain ⟨hcj, hca⟩ := selectBetter_le j acc c heq
        refine ⟨fun k hk hkp => ?_, fun a ha => ?_⟩
        · rcases List.mem_cons.mp hk with rfl | hk
          · exact Nat.le_trans hbc hcj
          · exact hrest k hk hkp
        · exact Nat.le_trans hbc (hca a ha)
    · rw [if_neg hp] at h
      obtain ⟨hrest, hacc⟩ := ih acc b h
      refine ⟨fun k hk hkp => ?_, hacc⟩
      rcases List.mem_cons.mp hk with rfl | hk
      · exact absurd hkp hp
      · exact hrest k hk hkp

theorem mapInsert_append_cons (key : α → String) (l₂ : List α) (x x' : α)
    (hk : key x' = key x) :
    ∀ l₁, (∀ y ∈ l₁, key y ≠ key x) →
      mapInsert key x' (l₁ ++ x :: l₂) = l₁ ++ x' :: l₂ := by
  intro l₁
  induction l₁ with
  | nil =>
    intro _
    rw [List.nil_append, mapInsert, if_pos (by rw [hk]), List.nil_append]
  | cons y l₁ ihl =>
    intro h
    rw [List.cons_append, mapInsert,
      if_neg (by rw [hk]; exact h y (List.mem_cons_self _ _)),
      ihl (fun z hz => h z (List.mem_cons_of_mem _ hz)), List.cons_append]

theorem exists_decomp_of_mem_nodup (l : List BuildJob) (b : BuildJob)
    (hb : b ∈ l) (hn : (l.map BuildJob.id).Nodup) :
    ∃ l₁ l₂, l = l₁ ++ b :: l₂ ∧ (∀ y ∈ l₁, y.id ≠ b.id) ∧ (∀ y ∈ l₂, y.id ≠ b.id) := by
  obtain ⟨l₁, l₂, rfl⟩ := List.append_of_mem hb
  refine ⟨l₁, l₂, rfl, ?_, ?_⟩
  · intro y hy hid
    rw [List.map_append, List.nodup_append] at hn
    exact hn.2.2 (List.mem_map_of_mem _ hy) (by simp [hid])
  · intro y hy hid
    rw [List.map_append, List.map_cons, List.nodup_append, List.nodup_cons] at hn
    exact hn.2.1.1 (by rw [← hid]; exact List.mem_map_of_mem _ hy)

theorem pendingJobs_append (l₁ l₂ : List BuildJob) :
    pendingJobs (l₁ ++ l₂) = pendingJobs l₁ ++ pendingJobs l₂ := by
  simp only [pendingJobs]
  exact List.filter_append _ _

theorem pendingJobs_cons_pending (j : BuildJob) (h : j.status = "pending")
    (l : List BuildJob) : pendingJobs (j :: l) = j :: pendingJobs l := by
  simp [pendingJobs, List.filter_cons, h]

theorem pendingJobs_cons_not (j : BuildJob) (h : ¬ j.status = "pending")
    (l : List BuildJob) : pendingJobs (j :: l) = pendingJobs l := by
  simp [pendingJobs, List.filter_cons, h]

theorem claimNext_err (now : Nat) (w : String) (st : StoreState)
    (h : pendingJobs st.buildJobs = []) :
    claimNextPendingBuildJob now true w st = (Except.error StoreError.notFound, st) := by
  have hsel : selectPendingAux none st.buildJobs = none :=
    (selectPendingAux_eq_none st.buildJobs none).mpr ⟨rfl, h⟩
  rw [claimNextPendingBuildJob, hsel]

theorem claimNext_ok_of_pending_ne (now : Nat) (w : String) (st : StoreState)
    (h : pendingJobs st.buildJobs ≠ []) :
    ∃ j' st', claimNextPendingBuildJob now true w st = (Except.ok j', st') := by
  cases hsel : selectPendingAux none st.buildJobs with
  | none => exact absurd ((selectPendingAux_eq_none _ none).mp hsel).2 h
  | some sel =>
    refine
      ⟨{ sel with
           status := "running"
           workerId := w
           startedAt := some now
           updatedAt := now },
       { st with
           buildJobs := mapInsert BuildJob.id
             { sel with
                 status := "running"
                 workerId := w
                 startedAt := some now
                 updatedAt := now } st.buildJobs }, ?_⟩
    rw [claimNextPendingBuildJob, hsel]
    rfl

theorem claimNext_ok_spec (now : Nat) (w : String) (st : StoreState) (j' : BuildJob)
    (st' : StoreState) (hn : (st.buildJobs.map BuildJob.id).Nodup)
    (h : claimNextPendingBuildJob now true w st = (Except.ok j', st')) :
    st'.buildJobs.map BuildJob.id = st.buildJobs.map BuildJob.id ∧
    ∃ sel A B,
      sel.id = j'.id ∧ sel.createdAt = j'.createdAt ∧
      pendingJobs st.buildJobs = A ++ sel :: B ∧
      pendingJobs st'.buildJobs = A ++ B ∧
      (∀ y ∈ A, y.id ≠ sel.id) ∧ (∀ y ∈ B, y.id ≠ sel.id) ∧
      (∀ k ∈ pendingJobs st.buildJobs, sel.createdAt ≤ k.createdAt) := by
  cases hsel : selectPendingAux none st.buildJobs with
  | none =>
    rw [claimNextPendingBuildJob, hsel] at h
    cases h
  | some sel =>
    rw [claimNextPendingBuildJob, hsel] at h
    set jj : BuildJob :=
      { sel with
          status := "running"
          workerId := w
          startedAt := some now
          updatedAt := now } with hjj
    injection h with h1 h2
    injection h1 with h1
    have hmem : sel ∈ st.buildJobs ∧ sel.status = "pending" := by
      rcases selectPendingAux_mem st.buildJobs none sel hsel with habs | hgood
      · cases habs
      · exact hgood
    have hmin : ∀ k ∈ st.buildJobs, k.status = "pending" → sel.createdAt ≤ k.createdAt :=
      (selectPendingAux_min st.buildJobs none sel hsel).1
    obtain ⟨l₁, l₂, hdec, hl₁, hl₂⟩ := exists_decomp_of_mem_nodup st.buildJobs sel hmem.1 hn
    have hins : st'.buildJobs = l₁ ++ jj :: l₂ := by
      rw [← h2, hdec]
      exact mapInsert_append_cons BuildJob.id l₂ sel jj rfl l₁ hl₁
    have hjid : jj.id = sel.id := by rw [hjj]
    have hjt : jj.createdAt = sel.createdAt := by rw [hjj]
    have hjst : ¬ jj.status = "pending" := by rw [hjj]; simp
    refine ⟨?_, sel, pendingJobs l₁, pendingJobs l₂,
      by rw [← h1, hjid], by rw [← h1, hjt], ?_, ?_, ?_, ?_, ?_⟩
    · rw [hins, hdec]
      simp [List.map_append, hjid]
    · rw [hdec, pendingJobs_append, pendingJobs_cons_pending sel hmem.2]
    · rw [hins, pendingJobs_append, pendingJobs_cons_not jj hjst]
    · exact fun y hy => hl₁ y (List.mem_of_mem_filter hy)
    · exact fun y hy => hl₂ y (List.mem_of_mem_filter hy)
    · intro k hk
      have := List.mem_filter.mp hk
      exact hmin k this.1 (of_decide_eq_true this.2)

theorem runClaims_cons (now : Nat) (w : String) (rest : List (Nat × String))
    (st : StoreState) :
    runClaims ((now, w) :: rest) st =
      match claimNextPendingBuildJob now true w st with
      | (Except.ok j, st') => j :: runClaims rest st'
      | (Except.error _, st') => runClaims rest st' := rfl

theorem runClaims_length (params : List (Nat × String)) :
    ∀ st : StoreState, (st.buildJobs.map BuildJob.id).Nodup →
      (runClaims params st).length = min params.length (pendingJobs st.buildJobs).length := by
  induction params with
  | nil => intro st _; simp [runClaims]
  | cons p rest ih =>
    obtain ⟨now, w⟩ := p
    intro st hn
    by_cases hp : pendingJobs st.buildJobs = []
    · rw [runClaims_cons, claimNext_err now w st hp]
      rw [ih st hn, hp]
      simp
    · obtain ⟨j', st', hclaim⟩ := claimNext_ok_of_pending_ne now w st hp
      rw [runClaims_cons, hclaim]
      obtain ⟨hids, sel, A, B, _, _, hpend, hpend', _, _, _⟩ :=
        claimNext_ok_spec now w st j' st' hn hclaim
      have hn' : (st'.buildJobs.map BuildJob.id).Nodup := by rw [hids]; exact hn
      show (runClaims rest st').length + 1 = _
      rw [ih st' hn', hpend', hpend]
      simp only [List.length_append, List.length_cons]
      omega

theorem runClaims_ids (params : List (Nat × String)) :
    ∀ st : StoreState, (st.buildJobs.map BuildJob.id).Nodup →
      ((runClaims params st).map BuildJob.id).Nodup ∧
      ∀ i ∈ (runClaims params st).map BuildJob.id,
        i ∈ (pendingJobs st.buildJobs).map BuildJob.id := by
  induction params with
  | nil => intro st _; simp [runClaims]
  | cons p rest ih =>
    obtain ⟨now, w⟩ := p
    intro st hn
    by_cases hp : pendingJobs st.buildJobs = []
    · rw [runClaims_cons, claimNext_err now w st hp]
      exact ih st hn
    · obtain ⟨j', st', hclaim⟩ := claimNext_ok_of_pending_ne now w st hp
      rw [runClaims_cons, hclaim]
      obtain ⟨hids, sel, A, B, hid, _, hpend, hpend', hA, hB, _⟩ :=
        claimNext_ok_spec now w st j' st' hn hclaim
      have hn' : (st'.buildJobs.map BuildJob.id).Nodup := by rw [hids]; exact hn
      obtain ⟨ihn, ihs⟩ := ih st' hn'
      constructor
      · rw [List.map_cons, List.nodup_cons]
        refine ⟨fun hmem => ?_, ihn⟩
        have hsub := ihs _ hmem
        rw [hpend', List.map_append, List.mem_append] at hsub
        rcases hsub with hin | hin
        · obtain ⟨y, hy, hyid⟩ := List.mem_map.mp hin
          exact hA y hy (by rw [hyid, hid])
        · obtain ⟨y, hy, hyid⟩ := List.mem_map.mp hin
          exact hB y hy (by rw [hyid, hid])
      · intro i hi
        rw [List.map_cons] at hi
        rw [hpend, List.map_append, List.map_cons]
        rcases List.mem_cons.mp hi with rfl | hi
        · exact List.mem_append.mpr (Or.inr (by rw [← hid]; exact List.mem_cons_self _ _))
        · have hsub := ihs i hi
          rw [hpend', List.map_append, List.mem_append] at hsub
          rcases hsub with hin | hin
          · exact List.mem_append.mpr (Or.inl hin)
          · exact List.mem_append.mpr (Or.inr (List.mem_cons_of_mem _ hin))

theorem runClaims_times (params : List (Nat × String)) :
    ∀ st : StoreState, (st.buildJobs.map BuildJob.id).Nodup →
      ((pendingJobs st.buildJobs).map BuildJob.createdAt).Nodup →
      ((runClaims params st).map BuildJob.createdAt).Sorted (· < ·) ∧
      ∀ t ∈ (runClaims params st).map BuildJob.createdAt,
        t ∈ (pendingJobs st.buildJobs).map BuildJob.createdAt := by
  induction params with
  | nil => intro st _ _; simp [runClaims, List.Sorted]
  | cons p rest ih =>
    obtain ⟨now, w⟩ := p
    intro st hn ht
    by_cases hp : pendingJobs st.buildJobs = []
    · rw [runClaims_cons, claimNext_err now w st hp]
      exact ih st hn ht
    · obtain ⟨j', st', hclaim⟩ := claimNext_ok_of_pending_ne now w st hp
      rw [runClaims_cons, hclaim]
      obtain ⟨hids, sel, A, B, _, hti, hpend, hpend', _, _, hmin⟩ :=
        claimNext_ok_spec now w st j' st' hn hclaim
      have hn' : (st'.buildJobs.map BuildJob.id).Nodup := by rw [hids]; exact hn
      rw [hpend, List.map_append, List.map_cons, List.nodup_append, List.nodup_cons] at ht
      have ht' : ((pendingJobs st'.buildJobs).map BuildJob.createdAt).Nodup := by
        rw [hpend', List.map_append, List.nodup_append]
        exact ⟨ht.1, ht.2.1.2, fun a ha hb => ht.2.2 ha (List.mem_cons_of_mem _ hb)⟩
      have hselA : sel.createdAt ∉ A.map BuildJob.createdAt :=
        fun hmem => ht.2.2 hmem (List.mem_cons_self _ _)
      have hselB : sel.createdAt ∉ B.map BuildJob.createdAt := ht.2.1.1
      obtain ⟨ihsorted, ihsub⟩ := ih st' hn' ht'
      constructor
      · rw [List.map_cons, List.sorted_cons]
        refine ⟨fun t htm => ?_, ihsorted⟩
        have hsub := ihsub t htm
        rw [hpend', List.map_append, List.mem_append] at hsub
        have hle : sel.createdAt ≤ t := by
          rcases hsub with hin | hin
          · obtain ⟨y, hy, hyid⟩ := List.mem_map.mp hin
            exact hyid ▸ hmin y (by rw [hpend]; exact List.mem_append.mpr (Or.inl hy))
          · obtain ⟨y, hy, hyid⟩ := List.mem_map.mp hin
            exact hyid ▸ hmin y
              (by rw [hpend]; exact List.mem_append.mpr (Or.inr (List.mem_cons_of_mem _ hy)))
        have hne : sel.createdAt ≠ t := by
          intro heq
          rcases hsub with hin | hin
          · exact hselA (heq ▸ hin)
          · exact hselB (heq ▸ hin)
        rw [← hti]
        exact Nat.lt_of_le_of_ne hle hne
      · intro t htm
        rw [List.map_cons] at htm
        rw [hpend, List.map_append, List.map_cons]
        rcases List.mem_cons.mp htm with rfl | htm
        · exact List.mem_append.mpr (Or.inr (by rw [← hti]; exact List.mem_cons_self _ _))
        · have hsub := ihsub t htm
          rw [hpend', List.map_append, List.mem_append] at hsub
          rcases hsub with hin | hin
          · exact List.mem_append.mpr (Or.inl hin)
          · exact List.mem_append.mpr (Or.inr (List.mem_cons_of_mem _ hin))

theorem buildJobReset_id (now : Nat) (job : BuildJob) :
    (buildJobReset now job).id = job.id := by
  unfold buildJobReset
  by_cases h1 : job.status = "" <;>
    by_cases h2 : job.serviceId ≠ "" ∧ job.environment = "" <;>
    simp [h1, h2]

theorem buildJobStamped_fields (now : Nat) (job : BuildJob) :
    (buildJobStamped now job).id = job.id ∧
    (buildJobStamped now job).status = job.status ∧
    (buildJobStamped now job).reason = job.reason ∧
    (buildJobStamped now job).artifacts = job.artifacts ∧
    (buildJobStamped now job).composePath = trimSpace job.composePath := by
  unfold buildJobStamped
  by_cases h1 : job.status = "succeeded" ∨ job.status = "failed" <;>
    by_cases h2 : job.completedAt = none <;>
    simp [h1, h2]

theorem buildJobStamped_completedAt (now : Nat) (job : BuildJob) :
    (buildJobStamped now job).completedAt =
      if job.status = "succeeded" ∨ job.status = "failed" then
        (if job.completedAt = none then some now else job.completedAt)
      else none := by
  unfold buildJobStamped
  by_cases h1 : job.status = "succeeded" ∨ job.status = "failed" <;>
    by_cases h2 : job.completedAt = none <;>
    simp [h1, h2]

theorem applyJobPatch_fields (payload : JobPatchPayload) (job : BuildJob) :
    (applyJobPatch payload job).id = job.id ∧
    (applyJobPatch payload job).status =
      (if payload.status = "" then job.status else payload.status) ∧
    (applyJobPatch payload job).reason = payload.reason ∧
    (applyJobPatch payload job).artifacts = payload.artifacts.getD job.artifacts ∧
    (applyJobPatch payload job).composePath =
      (if payload.composePath = "" then job.composePath else payload.composePath) ∧
    (applyJobPatch payload job).completedAt = job.completedAt := by
  unfold applyJobPatch
  by_cases h1 : payload.status = "" <;>
    rcases payload.artifacts with _ | a <;>
    by_cases h3 : payload.composePath = "" <;>
    simp [h1, h3]

theorem updateBuildJob_found (now : Nat) (st : StoreState) (job old : BuildJob)
    (hex : getBuildJob st job.id = some old) :
    (updateBuildJob now true st job).1 = none ∧
    getBuildJob (updateBuildJob now true st job).2 job.id =
      some (buildJobStamped now job) := by
  unfold updateBuildJob getBuildJob at *
  rw [hex]
  refine ⟨rfl, ?_⟩
  have hid : (buildJobStamped now job).id = job.id := (buildJobStamped_fields now job).1
  rw [← hid]
  exact mapGet_mapInsert_self _ _ _

/-- C1: for any N `ClaimNextPendingBuildJob` calls against a store whose
job map holds M pending jobs, executed in the serialization order imposed
by the store's single write lock (the whole scan-and-transition of each
call is one critical section, so every concurrent interleaving is some
such order), the returned job IDs are pairwise distinct and exactly
min(N, M) calls succeed. -/
theorem c1_claim_atomicity (params : List (Nat × String)) (st : StoreState)
    (hn : (st.buildJobs.map BuildJob.id).Nodup) :
    ((runClaims params st).map BuildJob.id).Nodup ∧
    (runClaims params st).length = min params.length (pendingJobs st.buildJobs).length :=
  ⟨(runClaims_ids params st hn).1, runClaims_length params st hn⟩

/-- C1 witness: three callers against three pending jobs (plus one running
job) receive three distinct jobs. -/
theorem c1_claim_atomicity_witness :
    (exQueue.buildJobs.map BuildJob.id).Nodup ∧
    (((runClaims [(10, "w1"), (11, "w2"), (12, "w3")] exQueue).map BuildJob.id).Nodup ∧
     (runClaims [(10, "w1"), (11, "w2"), (12, "w3")] exQueue).length =
       min ([(10, "w1"), (11, "w2"), (12, "w3")] : List (Nat × String)).length
         (pendingJobs exQueue.buildJobs).length) :=
  ⟨by decide, c1_claim_atomicity [(10, "w1"), (11, "w2"), (12, "w3")] exQueue (by decide)⟩

/-- C5: when the pending jobs have pairwise-distinct creation times,
repeated claiming returns jobs with strictly increasing creation times:
each successful claim takes the oldest pending job. -/
theorem c5_claim_oldest_first (params : List (Nat × String)) (st : StoreState)
    (hn : (st.buildJobs.map BuildJob.id).Nodup)
    (ht : ((pendingJobs st.buildJobs).map BuildJob.createdAt).Nodup) :
    ((runClaims params st).map BuildJob.createdAt).Sorted (· < ·) :=
  (runClaims_times params st hn ht).1

/-- C5 witness: claiming three times from the concrete queue returns the
jobs in strictly increasing creation-time order. -/
theorem c5_claim_oldest_first_witness :
    ((exQueue.buildJobs.map BuildJob.id).Nodup ∧
     ((pendingJobs exQueue.buildJobs).map BuildJob.createdAt).Nodup) ∧
    ((runClaims [(20, "w1"), (21, "w2"), (22, "w3")] exQueue).map
      BuildJob.createdAt).Sorted (· < ·) :=
  ⟨⟨by decide, by decide⟩,
   c5_claim_oldest_first [(20, "w1"), (21, "w2"), (22, "w3")] exQueue (by decide) (by decide)⟩

/-- C2 counterexample: creating a fresh project with a failing snapshot
write surfaces the persistence error, yet a subsequent read of the same
store observes the project that was unobservable before the call — the
in-memory state did change, contradicting the claim that the mutation is
considered not to have happened in memory. -/
theorem c2_counterexample :
    (createProject 4 false emptyStore
        { id := "p1", name := "N", slug := "n", createdAt := 0 }).1 =
      some StoreError.persistenceFailure ∧
    getProject emptyStore "p1" = none ∧
    getProject (createProject 4 false emptyStore
        { id := "p1", name := "N", slug := "n", createdAt := 0 }).2 "p1" =
      some { id := "p1", name := "N", slug := "n", createdAt := 4 } := by decide

/-- C2 (amended): when the snapshot write fails, the mutation surfaces the
persistence error to the caller, but the in-memory mutation is retained
rather than rolled back — a subsequent read observes the new entity, so
the in-memory and on-disk views do diverge (shown for CreateProject, whose
code path is the claim's citation; every mutation persists after mutating
in the same way). -/
theorem c2_persistence_failure_not_rolled_back (now : Nat) (st : StoreState)
    (p : Project) (hfresh : getProject st p.id = none) :
    (createProject now false st p).1 = some StoreError.persistenceFailure ∧
    getProject (createProject now false st p).2 p.id =
      some { p with createdAt := now } := by
  unfold createProject getProject at *
  rw [hfresh]
  refine ⟨rfl, ?_⟩
  exact mapGet_mapInsert_self Project.id { p with createdAt := now } st.projects

/-- C2 witness: the amended statement at the concrete counterexample
input. -/
theorem c2_persistence_failure_not_rolled_back_witness :
    getProject emptyStore "p1" = none ∧
    ((createProject 4 false emptyStore
        { id := "p1", name := "N", slug := "n", createdAt := 0 }).1 =
      some StoreError.persistenceFailure ∧
     getProject (createProject 4 false emptyStore
        { id := "p1", name := "N", slug := "n", createdAt := 0 }).2 "p1" =
      some { id := "p1", name := "N", slug := "n", createdAt := 4 }) :=
  ⟨by decide, c2_persistence_failure_not_rolled_back 4 emptyStore
    { id := "p1", name := "N", slug := "n", createdAt := 0 } (by decide)⟩

/-- C3 counterexample: CreateBuildJob on an ID that is already present
does not fail with AlreadyExists — it succeeds and silently overwrites the
stored job, refuting the claim for the build-job member of the Create*
family. -/
theorem c3_counterexample :
    (createBuildJob 6 true
        { emptyStore with buildJobs := [{ baseJob with id := "j", repository := "old" }] }
        { baseJob with id := "j", repository := "new" }).1 = none ∧
    getBuildJob (createBuildJob 6 true
        { emptyStore with buildJobs := [{ baseJob with id := "j", repository := "old" }] }
        { baseJob with id := "j", repository := "new" }).2 "j" =
      some { baseJob with
               id := "j"
               repository := "new"
               status := "pending"
               createdAt := 6
               updatedAt := 6 } := by decide

/-- C3 (amended): CreateProject and CreateService fail with AlreadyExists
on a present ID and leave the store unchanged; CreateBuildJob performs no
duplicate check — on a present ID it succeeds and replaces the stored job
with the reset incoming one. -/
theorem c3_create_already_exists (now : Nat) (persistOk : Bool) (st : StoreState)
    (p : Project) (svc : Service) (job old : BuildJob)
    (hp : (getProject st p.id).isSome) (hs : (getService st svc.id).isSome)
    (hj : getBuildJob st job.id = some old) :
    createProject now persistOk st p = (some (StoreError.alreadyExists "project"), st) ∧
    createService now persistOk st svc = (some (StoreError.alreadyExists "service"), st) ∧
    (createBuildJob now true st job).1 = none ∧
    getBuildJob (createBuildJob now true st job).2 job.id =
      some (buildJobReset now job) := by
  refine ⟨?_, ?_, rfl, ?_⟩
  · obtain ⟨q, hq⟩ := Option.isSome_iff_exists.mp hp
    unfold getProject at hq
    unfold createProject
    rw [hq]
  · obtain ⟨q, hq⟩ := Option.isSome_iff_exists.mp hs
    unfold getService at hq
    unfold createService
    rw [hq]
  · unfold createBuildJob getBuildJob
    rw [← buildJobReset_id now job]
    exact mapGet_mapInsert_self _ _ _

/-- C3 witness: the amended statement at concrete inputs — a duplicate
project and service are rejected, while a duplicate build job is
overwritten. -/
theorem c3_create_already_exists_witness :
    ((getProject exStoreC3 "p1").isSome ∧ (getService exStoreC3 "s1").isSome ∧
     getBuildJob exStoreC3 "j" = some { baseJob with id := "j", repository := "old" }) ∧
    (createProject 6 true exStoreC3 { id := "p1", name := "M", slug := "m", createdAt := 0 } =
       (some (StoreError.alreadyExists "project"), exStoreC3) ∧
     createService 6 true exStoreC3 { baseService with id := "s1", name := "X" } =
       (some (StoreError.alreadyExists "service"), exStoreC3) ∧
     (createBuildJob 6 true exStoreC3 { baseJob with id := "j", repository := "new" }).1 =
       none ∧
     getBuildJob (createBuildJob 6 true exStoreC3
         { baseJob with id := "j", repository := "new" }).2 "j" =
       some (buildJobReset 6 { baseJob with id := "j", repository := "new" })) :=
  ⟨⟨by decide, by decide, by decide⟩,
   c3_create_already_exists 6 true exStoreC3
     { id := "p1", name := "M", slug := "m", createdAt := 0 }
     { baseService with id := "s1", name := "X" }
     { baseJob with id := "j", repository := "new" }
     { baseJob with id := "j", repository := "old" }
     (by decide) (by decide) (by decide)⟩

/-- C6: for an existing job, the stored result of UpdateBuildJob carries a
completion time that is set exactly once on entry into a terminal status
(not overwritten when already set), and cleared on transition to a
non-terminal status. -/
theorem c6_completion_time (now : Nat) (st : StoreState) (job old : BuildJob)
    (hex : getBuildJob st job.id = some old) :
    getBuildJob (updateBuildJob now true st job).2 job.id =
      some (buildJobStamped now job) ∧
    ((job.status = "succeeded" ∨ job.status = "failed") → job.completedAt = none →
      (buildJobStamped now job).completedAt = some now) ∧
    ((job.status = "succeeded" ∨ job.status = "failed") → job.completedAt ≠ none →
      (buildJobStamped now job).completedAt = job.completedAt) ∧
    (¬ (job.status = "succeeded" ∨ job.status = "failed") →
      (buildJobStamped now job).completedAt = none) := by
  refine ⟨(updateBuildJob_found now st job old hex).2, ?_, ?_, ?_⟩ <;>
    intro h1 <;> rw [buildJobStamped_completedAt]
  · intro h2
    simp [h1, h2]
  · intro h2
    simp [h1, h2]
  · simp [h1]

/-- C6 witness: completing a running job with no completion time stamps
it with the update time. -/
theorem c6_completion_time_witness :
    getBuildJob { emptyStore with buildJobs :=
        [{ baseJob with id := "j", status := "running" }] } "j" =
      some { baseJob with id := "j", status := "running" } ∧
    (getBuildJob (updateBuildJob 9 true
        { emptyStore with buildJobs := [{ baseJob with id := "j", status := "running" }] }
        { baseJob with id := "j", status := "succeeded" }).2 "j" =
      some (buildJobStamped 9 { baseJob with id := "j", status := "succeeded" }) ∧
     ((({ baseJob with id := "j", status := "succeeded" } : BuildJob).status = "succeeded" ∨
        ({ baseJob with id := "j", status := "succeeded" } : BuildJob).status = "failed") →
      ({ baseJob with id := "j", status := "succeeded" } : BuildJob).completedAt = none →
      (buildJobStamped 9 { baseJob with id := "j", status := "succeeded" }).completedAt =
        some 9)) :=
  ⟨by decide,
   (c6_completion_time 9 { emptyStore with buildJobs :=
        [{ baseJob with id := "j", status := "running" }] }
      { baseJob with id := "j", status := "succeeded" }
      { baseJob with id := "j", status := "running" } (by decide)).1,
   (c6_completion_time 9 { emptyStore with buildJobs :=
        [{ baseJob with id := "j", status := "running" }] }
      { baseJob with id := "j", status := "succeeded" }
      { baseJob with id := "j", status := "running" } (by decide)).2.1⟩

/-- C7 counterexample: a PATCH whose reason field is empty does not keep
the stored reason — the handler assigns the request reason
unconditionally, so the stored reason is cleared. -/
theorem c7_counterexample :
    getBuildJob { emptyStore with buildJobs :=
        [{ baseJob with id := "j", status := "running", reason := "boom" }] } "j" =
      some { baseJob with id := "j", status := "running", reason := "boom" } ∧
    getBuildJob (handleBuildJobPatch 9 true
        { emptyStore with buildJobs :=
            [{ baseJob with id := "j", status := "running", reason := "boom" }] }
        "j" { status := "", reason := "", artifacts := none, composePath := "" }).2 "j" =
      some { baseJob with id := "j", status := "running", reason := "", updatedAt := 9 } := by
  decide

/-- C7 (amended): the PATCH is a partial update for status, artifacts and
compose_path — each keeps its previous value when empty or nil in the
request — but reason is not partial: the stored reason is always replaced
by the request's reason value, clearing it when absent. -/
theorem c7_partial_update (now : Nat) (st : StoreState) (id : String)
    (payload : JobPatchPayload) (old : BuildJob)
    (hex : getBuildJob st id = some old) :
    ∃ j', getBuildJob (handleBuildJobPatch now true st id payload).2 id = some j' ∧
      j'.status = (if payload.status = "" then old.status else payload.status) ∧
      j'.artifacts = payload.artifacts.getD old.artifacts ∧
      j'.composePath = trimSpace (if payload.composePath = "" then old.composePath
                                  else payload.composePath) ∧
      j'.reason = payload.reason := by
  obtain ⟨hold_id, -⟩ := mapGet_eq_some BuildJob.id id st.buildJobs old hex
  have hpid : (applyJobPatch payload old).id = id := by
    rw [(applyJobPatch_fields payload old).1, hold_id]
  have hfound := updateBuildJob_found now st (applyJobPatch payload old) old
    (by rw [hpid]; exact hex)
  refine ⟨buildJobStamped now (applyJobPatch payload old), ?_, ?_, ?_, ?_, ?_⟩
  · unfold handleBuildJobPatch
    rw [hex, ← hpid]
    exact hfound.2
  · rw [(buildJobStamped_fields now _).2.1, (applyJobPatch_fields payload old).2.1]
  · rw [(buildJobStamped_fields now _).2.2.2.1,
      (applyJobPatch_fields payload old).2.2.2.1]
  · rw [(buildJobStamped_fields now _).2.2.2.2,
      (applyJobPatch_fields payload old).2.2.2.2.1]
  · rw [(buildJobStamped_fields now _).2.2.1, (applyJobPatch_fields payload old).2.2.1]

/-- C7 witness: the amended statement at the concrete counterexample
input — status, artifacts and compose path survive an empty request while
reason is cleared. -/
theorem c7_partial_update_witness :
    getBuildJob exStoreC7 "j" =
      some { baseJob with id := "j", status := "running", reason := "boom" } ∧
    ∃ j', getBuildJob (handleBuildJobPatch 9 true exStoreC7 "j"
        { status := "", reason := "", artifacts := none, composePath := "" }).2 "j" =
        some j' ∧
      j'.status = (if ("" : String) = "" then
        ({ baseJob with id := "j", status := "running", reason := "boom" } : BuildJob).status
        else "") ∧
      j'.artifacts = (none : Option (List String)).getD
        ({ baseJob with id := "j", status := "running", reason := "boom" } : BuildJob).artifacts ∧
      j'.composePath = trimSpace (if ("" : String) = "" then
        ({ baseJob with id := "j", status := "running", reason := "boom" } : BuildJob).composePath
        else "") ∧
      j'.reason = "" :=
  ⟨by decide,
   c7_partial_update 9 exStoreC7 "j"
     { status := "", reason := "", artifacts := none, composePath := "" }
     { baseJob with id := "j", status := "running", reason := "boom" } (by decide)⟩

/-- A converged single-image service: no compose file, labeled container
present, running, image equal to the desired one. -/
def convergedSvc : ServiceInfo :=
  { id := "s1", projectId := "p", name := "web", image := "nginx:1.0",
    internalPort := 8080, compose := "" }

/-- The runtime state in which `convergedSvc` is already converged. -/
def convergedRt : ServiceRuntime :=
  { composeFile := none, container := some { image := "nginx:1.0", running := true } }

/-- C4 counterexample: for a single-image service whose labeled container
already runs the desired image, the convergence step still issues a docker
pull: the issued command list is non-empty and contains a pull,
contradicting the claim that no runtime mutation call (no pull, remove,
run, or compose command) is issued. -/
theorem c4_counterexample :
    (ensureContainer convergedSvc convergedRt).1 ≠ [] ∧
    DockerCmd.pull "nginx:1.0" ∈ (ensureContainer convergedSvc convergedRt).1 := by decide

/-- C4 (amended): for a single-image service whose labeled container
already runs the desired image, the convergence step issues exactly one
docker pull and no remove, run, start, or compose command, and leaves the
runtime unchanged; consequently a second pass over the unchanged desired
state issues the same single pull per service again — one pull, not zero
runtime calls. -/
theorem c4_idempotent_reconcile (svc : ServiceInfo) (rt : ServiceRuntime)
    (c : ContainerState)
    (himg : ¬ trimSpace svc.image = "")
    (hcf : rt.composeFile = none)
    (hc : rt.container = some c)
    (hci : trimSpace c.image = svc.image)
    (hrun : c.running = true) :
    ensureContainer svc rt = ([DockerCmd.pull svc.image], rt) := by
  unfold ensureContainer
  rw [hcf]
  simp [hc, himg, hci, hrun]

/-- C4 witness: the amended statement at the converged concrete input. -/
theorem c4_idempotent_reconcile_witness :
    (¬ trimSpace convergedSvc.image = "" ∧
     convergedRt.composeFile = none ∧
     convergedRt.container = some { image := "nginx:1.0", running := true } ∧
     trimSpace ("nginx:1.0" : String) = convergedSvc.image) ∧
    ensureContainer convergedSvc convergedRt =
      ([DockerCmd.pull convergedSvc.image], convergedRt) :=
  ⟨⟨by decide, by decide, by decide, by decide⟩,
   c4_idempotent_reconcile convergedSvc convergedRt
     { image := "nginx:1.0", running := true }
     (by decide) (by decide) (by decide) (by decide) (by decide)⟩

/-- An installation with a stored webhook secret, external ID 42. -/
def exInstallation : Installation :=
  { id := "acme-42", account := "acme", externalId := "42",
    webhookSecret := "s3cr3t", createdAt := 0, updatedAt := 0 }

/-- A store holding only `exInstallation`. -/
def exStoreC8 : StoreState :=
  { emptyStore with installations := [exInstallation] }

/-- A service owned by project p1 with one production deployment. -/
def exService : Service :=
  { baseService with
      id := "s1"
      projectId := "p1"
      name := "web"
      internalPort := 8080
      deployments := [{ id := "d0", serviceId := "s1", environment := "production",
                        image := "img:0", createdAt := 0 }] }

/-- A store holding project p1 and `exService`. -/
def exStoreC9 : StoreState :=
  { emptyStore with
      projects := [{ id := "p1", name := "P", slug := "p", createdAt := 0 }],
      services := [exService] }

/-- A signed push webhook request for installation 42. -/
def exPushReq : WebhookRequest :=
  { event := "push", sig := "sha256=00", body := "payload",
    installationIdHeader := "42", extractedInstallationId := "",
    pushInfo := some { repository := "o/r", ref := "refs/heads/main", after := "c0ffee" } }

/-- C8 counterexample: a push request carrying an X-Hub-Signature-256
header that cannot be verified because no stored secret exists (the store
has no matching installation) is not rejected: the handler skips
verification, accepts the request and enqueues a build job — contradicting
the claim that such a request is rejected with SignatureInvalid and
creates no job.  The result does not depend on the HMAC function, which is
never invoked on this path; it is instantiated with a concrete stub. -/
theorem c8_counterexample :
    (handleGitHubWebhook (fun _ _ => []) "job1" 7 true emptyStore exPushReq).rejected =
      none ∧
    (handleGitHubWebhook (fun _ _ => []) "job1" 7 true emptyStore
      exPushReq).createdJobId = some "job1" := by decide

/-- C8 (amended): when an installation with a non-empty stored secret is
found, a signature that fails verification (wrong body, wrong secret, or
malformed header) is rejected with SignatureInvalid, the store is left
unchanged and no build job is created; but when no stored secret exists, a
present signature is only logged — verification is skipped and the
request is processed normally. -/
theorem c8_signature_rejection (mac : String → String → List Nat) (newId : String)
    (now : Nat) (persistOk : Bool) (st : StoreState) (req : WebhookRequest)
    (i : Installation) (e : StoreError)
    (hhdr : ¬ req.installationIdHeader = "")
    (hinst : findInstallationByExternalID st req.installationIdHeader = some i)
    (hsecret : ¬ i.webhookSecret = "")
    (hfail : verifySignature mac req.sig req.body i.webhookSecret = some e) :
    handleGitHubWebhook mac newId now persistOk st req =
      { rejected := some e, store := st, createdJobId := none } := by
  simp [handleGitHubWebhook, hhdr, hinst, hsecret, hfail]

/-- C8 witness: the amended statement where the stored secret exists and
the HMAC of the body disagrees with the delivered signature, so the
request is rejected and no job is created. -/
theorem c8_signature_rejection_witness :
    (¬ exPushReq.installationIdHeader = "" ∧
     findInstallationByExternalID exStoreC8 exPushReq.installationIdHeader =
       some exInstallation ∧
     ¬ exInstallation.webhookSecret = "" ∧
     verifySignature (fun _ _ => [1]) exPushReq.sig exPushReq.body
       exInstallation.webhookSecret =
         some (StoreError.signatureInvalid "signature mismatch")) ∧
    handleGitHubWebhook (fun _ _ => [1]) "job1" 7 true exStoreC8 exPushReq =
      { rejected := some (StoreError.signatureInvalid "signature mismatch"),
        store := exStoreC8, createdJobId := none } :=
  ⟨⟨by decide, by decide, by decide, by decide⟩,
   c8_signature_rejection (fun _ _ => [1]) "job1" 7 true exStoreC8 exPushReq
     exInstallation (StoreError.signatureInvalid "signature mismatch")
     (by decide) (by decide) (by decide) (by decide)⟩

theorem self_mem_mapInsert (key : α → String) (x : α) (l : List α) :
    x ∈ mapInsert key x l := by
  induction l with
  | nil => simp [mapInsert]
  | cons y rest ih =>
    rw [mapInsert]
    by_cases hy : key y = key x
    · rw [if_pos hy]
      exact List.mem_cons_self _ _
    · rw [if_neg hy]
      exact List.mem_cons_of_mem _ ih

/-- The service value handleServiceDeploymentsPost builds before calling
Store.UpdateService: the deployment entry for `env` replaced (or appended)
and the top-level image overwritten. -/
def deployOverlay (now : Nat) (newId sid env img : String) (svc : Service) : Service :=
  { svc with
      deployments := mapInsert Deployment.environment
        { id := newId, serviceId := sid, environment := env, image := img,
          createdAt := now } svc.deployments
      image := img }

theorem updateService_found (now : Nat) (st : StoreState) (svc old : Service)
    (hex : getService st svc.id = some old) :
    updateService now true st svc =
      (none,
       { st with
           services := mapInsert Service.id { svc with updatedAt := now } st.services }) := by
  unfold updateService getService at *
  rw [hex]
  rfl

theorem handleServiceDeploymentsPost_found (now : Nat) (newId : String)
    (st : StoreState) (sid : String) (svc : Service) (env img : String)
    (hsvc : getService st sid = some svc) (henv : ¬ env = "") (himg : ¬ img = "") :
    (handleServiceDeploymentsPost now true newId st sid
        { environment := env, image := img }).2 =
      { st with
          services := mapInsert Service.id
            { deployOverlay now newId sid env img svc with updatedAt := now }
            st.services } ∧
    getService (handleServiceDeploymentsPost now true newId st sid
        { environment := env, image := img }).2 sid =
      some { deployOverlay now newId sid env img svc with updatedAt := now } := by
  obtain ⟨hsid, -⟩ := mapGet_eq_some Service.id sid st.services svc hsvc
  have hmain : handleServiceDeploymentsPost now true newId st sid
      { environment := env, image := img } =
      updateService now true st (deployOverlay now newId sid env img svc) := by
    unfold handleServiceDeploymentsPost deployOverlay
    rw [hsvc]
    simp [henv, himg]
  have hupd := updateService_found now st (deployOverlay now newId sid env img svc) svc
    (by show getService st svc.id = some svc; rw [hsid]; exact hsvc)
  have hxid : ({ deployOverlay now newId sid env img svc with
                   updatedAt := now } : Service).id = sid := by
    show (deployOverlay now newId sid env img svc).id = sid
    unfold deployOverlay
    exact hsid
  constructor
  · rw [hmain, hupd]
  · rw [hmain, hupd]
    show mapGet Service.id sid (mapInsert Service.id
      { deployOverlay now newId sid env img svc with updatedAt := now } st.services) = _
    nth_rewrite 1 [← hxid]
    exact mapGet_mapInsert_self Service.id _ st.services

/-- C9: posting a deployment replaces in place the entry for its
environment: the per-environment uniqueness invariant is preserved by each
post, and after posting twice for the same environment with different
images the service holds exactly one entry for that environment, carrying
the latest image, which is also the service's top-level image. -/
theorem c9_deployment_replace (now1 now2 : Nat) (id1 id2 : String) (st : StoreState)
    (sid : String) (svc : Service) (env img1 img2 : String)
    (hsvc : getService st sid = some svc)
    (hinv : (svc.deployments.map Deployment.environment).Nodup)
    (henv : ¬ env = "") (h1 : ¬ img1 = "") (h2 : ¬ img2 = "") :
    ∃ svc1 svc2,
      getService (handleServiceDeploymentsPost now1 true id1 st sid
          { environment := env, image := img1 }).2 sid = some svc1 ∧
      (svc1.deployments.map Deployment.environment).Nodup ∧
      getService (handleServiceDeploymentsPost now2 true id2
          (handleServiceDeploymentsPost now1 true id1 st sid
            { environment := env, image := img1 }).2 sid
          { environment := env, image := img2 }).2 sid = some svc2 ∧
      svc2.deployments.filter (fun d => d.environment = env) =
        [{ id := id2, serviceId := sid, environment := env, image := img2,
           createdAt := now2 }] ∧
      (svc2.deployments.map Deployment.environment).Nodup ∧
      svc2.image = img2 := by
  obtain ⟨-, hget1⟩ :=
    handleServiceDeploymentsPost_found now1 id1 st sid svc env img1 hsvc henv h1
  have hnd1 : ((mapInsert Deployment.environment
      { id := id1, serviceId := sid, environment := env, image := img1,
        createdAt := now1 } svc.deployments).map Deployment.environment).Nodup :=
    mapInsert_nodup_keys Deployment.environment _ svc.deployments hinv
  obtain ⟨-, hget2⟩ :=
    handleServiceDeploymentsPost_found now2 id2
      (handleServiceDeploymentsPost now1 true id1 st sid
        { environment := env, image := img1 }).2 sid
      { deployOverlay now1 id1 sid env img1 svc with updatedAt := now1 }
      env img2 hget1 henv h2
  refine ⟨_, _, hget1, hnd1, hget2, ?_, ?_, rfl⟩
  · have hle : ((mapInsert Deployment.environment
        { id := id1, serviceId := sid, environment := env, image := img1,
          createdAt := now1 } svc.deployments).filter
          (fun d => d.environment = env)).length ≤ 1 :=
      filter_length_le_one_of_nodup Deployment.environment env _ hnd1
    exact filter_mapInsert_self Deployment.environment
      { id := id2, serviceId := sid, environment := env, image := img2,
        createdAt := now2 } _ hle
  · exact mapInsert_nodup_keys Deployment.environment _ _ hnd1

/-- C9 witness: posting production deployments twice onto a service that
already has a production entry leaves exactly one production entry with
the second image. -/
theorem c9_deployment_replace_witness :
    (getService exStoreC9 "s1" = some exService ∧
     (exService.deployments.map Deployment.environment).Nodup) ∧
    (∃ svc1 svc2,
      getService (handleServiceDeploymentsPost 5 true "d1" exStoreC9 "s1"
          { environment := "production", image := "img:1" }).2 "s1" = some svc1 ∧
      (svc1.deployments.map Deployment.environment).Nodup ∧
      getService (handleServiceDeploymentsPost 6 true "d2"
          (handleServiceDeploymentsPost 5 true "d1" exStoreC9 "s1"
            { environment := "production", image := "img:1" }).2 "s1"
          { environment := "production", image := "img:2" }).2 "s1" = some svc2 ∧
      svc2.deployments.filter (fun d => d.environment = "production") =
        [{ id := "d2", serviceId := "s1", environment := "production", image := "img:2",
           createdAt := 6 }] ∧
      (svc2.deployments.map Deployment.environment).Nodup ∧
      svc2.image = "img:2") :=
  ⟨⟨by decide, by decide⟩,
   c9_deployment_replace 5 6 "d1" "d2" exStoreC9 "s1" exService "production"
     "img:1" "img:2" (by decide) (by decide) (by decide) (by decide) (by decide)⟩

/-- C10: a successful deployment post for any environment overwrites the
service's top-level image with the posted image; the state endpoint then
exposes exactly that top-level image to the agent, and the agent's
convergence step drives the labeled container to it (pull, remove, run of
the posted image when no matching container exists). -/
theorem c10_image_overwrite (now : Nat) (newId : String) (st : StoreState)
    (sid : String) (svc : Service) (env img : String)
    (hsvc : getService st sid = some svc) (henv : ¬ env = "") (himg : ¬ img = "")
    (himgt : ¬ trimSpace img = "") :
    ∃ svc', getService (handleServiceDeploymentsPost now true newId st sid
        { environment := env, image := img }).2 sid = some svc' ∧
      svc'.image = img ∧
      (∀ proj ∈ (handleServiceDeploymentsPost now true newId st sid
          { environment := env, image := img }).2.projects,
         proj.id = svc.projectId →
         ({ id := svc.id, projectId := svc.projectId, name := svc.name, image := img,
            internalPort := svc.internalPort, compose := svc.compose } : ServiceInfo) ∈
           serviceStateList (handleServiceDeploymentsPost now true newId st sid
             { environment := env, image := img }).2) ∧
      ensureContainer
          { id := svc.id, projectId := svc.projectId, name := svc.name, image := img,
            internalPort := svc.internalPort, compose := svc.compose }
          { composeFile := none, container := none } =
        ([DockerCmd.pull img, DockerCmd.rm ("svc-" ++ svc.id),
          DockerCmd.runContainer img svc.id svc.internalPort],
         { composeFile := none, container := some { image := img, running := true } }) := by
  obtain ⟨hstate, hget⟩ :=
    handleServiceDeploymentsPost_found now newId st sid svc env img hsvc henv himg
  refine ⟨_, hget, rfl, ?_, ?_⟩
  · intro proj hproj hpid
    unfold serviceStateList
    rw [List.mem_flatMap]
    refine ⟨proj, hproj, ?_⟩
    rw [List.mem_map]
    refine ⟨{ deployOverlay now newId sid env img svc with updatedAt := now }, ?_, rfl⟩
    rw [List.mem_filter]
    constructor
    · rw [hstate]
      exact self_mem_mapInsert Service.id _ st.services
    · exact decide_eq_true hpid.symm
  · unfold ensureContainer
    simp [himgt]

/-- C10 witness: posting an image for the staging environment (not
production) still overwrites the top-level image, exposes it through the
state list, and the agent runs a container with exactly that image. -/
theorem c10_image_overwrite_witness :
    (getService exStoreC9 "s1" = some exService ∧ ¬ ("staging" : String) = "" ∧
     ¬ ("img:9" : String) = "" ∧ ¬ trimSpace "img:9" = "") ∧
    (∃ svc', getService (handleServiceDeploymentsPost 7 true "d9" exStoreC9 "s1"
        { environment := "staging", image := "img:9" }).2 "s1" = some svc' ∧
      svc'.image = "img:9" ∧
      (∀ proj ∈ (handleServiceDeploymentsPost 7 true "d9" exStoreC9 "s1"
          { environment := "staging", image := "img:9" }).2.projects,
         proj.id = exService.projectId →
         ({ id := exService.id, projectId := exService.projectId, name := exService.name,
            image := "img:9", internalPort := exService.internalPort,
            compose := exService.compose } : ServiceInfo) ∈
           serviceStateList (handleServiceDeploymentsPost 7 true "d9" exStoreC9 "s1"
             { environment := "staging", image := "img:9" }).2) ∧
      ensureContainer
          { id := exService.id, projectId := exService.projectId, name := exService.name,
            image := "img:9", internalPort := exService.internalPort,
            compose := exService.compose }
          { composeFile := none, container := none } =
        ([DockerCmd.pull "img:9", DockerCmd.rm ("svc-" ++ exService.id),
          DockerCmd.runContainer "img:9" exService.id exService.internalPort],
         { composeFile := none, container := some { image := "img:9", running := true } })) :=
  ⟨⟨by decide, by decide, by decide, by decide⟩,
   c10_image_overwrite 7 "d9" exStoreC9 "s1" exService "staging" "img:9"
     (by decide) (by decide) (by decide) (by decide)⟩

end MDP
